import Mathlib

/-!
Verification of the SystemRDL toolkit's JSON validation and differential
comparison scripts (`script/json_output_validator.py`,
`script/ast_output_validator.py`, `script/compare_implementations.py`).

The Python scripts operate on documents produced by `json.load`, i.e. on
values ranging over null, booleans, integers, strings, arrays and objects.
We embed that value universe as the inductive `Json` below.  Floating point
numbers never occur in the schemas under validation and are omitted.
Strings are modelled at ASCII fidelity (Python's `str.lower`, `str.strip`
and `int(s, 16)` are Unicode-aware; every string the claims exercise is
ASCII).

A crucial fidelity point: Python's `bool` is a subtype of `int`, so
`isinstance(True, int)` is `True` and `True` compares equal to `1`.  The
validators' `isinstance(x, int)` checks therefore accept JSON booleans;
this is captured by `asPyInt` below.

Validator methods log errors/warnings onto accumulator lists and return a
boolean verdict; `VResult` packages the verdict together with the
errors/warnings the call appends.  Functions that can raise an uncaught
Python exception (e.g. `validate_addrmap` applied to a non-dict, which
hits a `TypeError`) return `Option VResult`, with `none` standing for the
exception.
-/

/-- JSON values as produced by Python's `json.load` (floats omitted: the
validated schemas are integer/string/array/object shaped). -/
inductive Json where
  | null : Json
  | bool : Bool → Json
  | int : Int → Json
  | str : String → Json
  | arr : List Json → Json
  | obj : List (String × Json) → Json

/-- Python `v == s` for a string literal `s`: a Python value compares equal
to a string only if it is that string (ints, bools, None, lists, dicts are
never `==` to a str). -/
def isStrEq (v : Json) (s : String) : Bool :=
  match v with
  | .str t => t = s
  | _ => false

/-- Dictionary lookup, `kvs[k]` / `k in kvs` for a Python dict materialized
from JSON (keys unique, first match returned). -/
def getKey (k : String) : List (String × Json) → Option Json
  | [] => none
  | (k₁, v) :: rest => if k₁ = k then some v else getKey k rest

/-- Lookup of a key that is known to be present (call sites are guarded by
a preceding membership check, mirroring the Python `field not in data`
loops). -/
def getD (kvs : List (String × Json)) (k : String) : Json :=
  (getKey k kvs).getD Json.null

theorem getKey_sizeOf {k : String} :
    ∀ {kvs : List (String × Json)} {v : Json}, getKey k kvs = some v → sizeOf v < sizeOf kvs := by
  intro kvs
  induction kvs with
  | nil => intro v h; simp [getKey] at h
  | cons hd tl ih =>
    intro v h
    obtain ⟨k₁, v₁⟩ := hd
    simp only [getKey] at h
    split at h
    · cases h
      simp only [List.cons.sizeOf_spec, Prod.mk.sizeOf_spec]
      omega
    · have := ih h
      simp only [List.cons.sizeOf_spec, Prod.mk.sizeOf_spec]
      omega

/-- Python's `isinstance(x, int)` view of a JSON value: integers are
themselves, and booleans count as integers (`True == 1`, `False == 0`).
Everything else is not an int. -/
def asPyInt : Json → Option Int
  | .int n => some n
  | .bool b => some (if b then 1 else 0)
  | _ => none

/-- Result of one validator call: the boolean verdict plus the error and
warning messages the call appended to the accumulators, in order. -/
structure VResult where
  ok : Bool
  errors : List String
  warnings : List String
deriving DecidableEq

/-- Successful check, nothing logged. -/
def vpass : VResult := ⟨true, [], []⟩

/-- Hard error: `log_error` followed by `return False`. -/
def vfail (e : String) : VResult := ⟨false, [e], []⟩

/-- Soft warning: `log_warning`, validation continues. -/
def vwarn (w : String) : VResult := ⟨true, [], [w]⟩

/-- Sequencing of checks inside one validator body: if the first check
failed the function has already returned, otherwise the logs accumulate. -/
def VResult.andThen (r : VResult) (k : Unit → VResult) : VResult :=
  if r.ok then ⟨(k ()).ok, r.errors ++ (k ()).errors, r.warnings ++ (k ()).warnings⟩ else r

theorem VResult.andThen_ok_iff (r : VResult) (k : Unit → VResult) :
    (r.andThen k).ok = true ↔ r.ok = true ∧ (k ()).ok = true := by
  unfold VResult.andThen
  split <;> simp_all

/-- ASCII lowercase of a string, modelling Python's `str.lower()` on the
ASCII strings in play. -/
def lowerStr (s : String) : String := ⟨s.toList.map Char.toLower⟩

/-- Does `pat` occur contiguously inside `s`?  Models Python's
`pat in s` substring test. -/
def subOccurs (pat : List Char) : List Char → Bool
  | [] => pat.isEmpty
  | c :: rest => pat.isPrefixOf (c :: rest) || subOccurs pat rest

/-- Python `pat in s` on strings. -/
def containsSub (s pat : String) : Bool := subOccurs pat.toList s.toList

/-- Python `s.startswith(pre)`. -/
def pyStartsWith (s pre : String) : Bool := pre.toList.isPrefixOf s.toList

/-- Python `s.endswith(suf)` (used on the file stem). -/
def endsWithL (s suf : List Char) : Bool := suf.reverse.isPrefixOf s.reverse

/-- ASCII whitespace, the characters Python's `str.strip()` removes from
the strings in play: space, tab, newline, carriage return, vertical tab,
form feed (codes 32, 9, 10, 13, 11, 12). -/
def isPySpace (c : Char) : Bool :=
  c.toNat = 32 || c.toNat = 9 || c.toNat = 10 || c.toNat = 13 ||
    c.toNat = 11 || c.toNat = 12

def dropLeadingWs (cs : List Char) : List Char := cs.dropWhile isPySpace

def dropTrailingWs (cs : List Char) : List Char := (cs.reverse.dropWhile isPySpace).reverse

/-- Python `s.strip()`. -/
def stripWs (s : String) : String := ⟨dropTrailingWs (dropLeadingWs s.toList)⟩

/-- The characters accepted by `int(·, 16)` as hexadecimal digits:
`0`-`9` (codes 48-57), `a`-`f` (97-102), `A`-`F` (65-70). -/
def isHexDigit (c : Char) : Bool :=
  (48 ≤ c.toNat && c.toNat ≤ 57) || (97 ≤ c.toNat && c.toNat ≤ 102) ||
    (65 ≤ c.toNat && c.toNat ≤ 70)

def hexDigitVal (c : Char) : Nat :=
  if 48 ≤ c.toNat && c.toNat ≤ 57 then c.toNat - 48
  else if 97 ≤ c.toNat && c.toNat ≤ 102 then c.toNat - 97 + 10
  else c.toNat - 65 + 10

/-- After the `0x` prefix, CPython accepts hex digits with single
underscores between digits; an underscore may also directly follow the
prefix.  `hexTailOk` checks the digit/underscore discipline for the part
after the first position. -/
def hexTailOk : List Char → Bool
  | [] => true
  | c :: rest =>
    if c = '_' then
      match rest with
      | [] => false
      | d :: rest₂ => isHexDigit d && hexTailOk rest₂
    else isHexDigit c && hexTailOk rest

/-- Numeric value of a hex digit string, underscores skipped (they are
digit separators once `hexTailOk` has accepted the string). -/
def hexValOf (cs : List Char) : Nat :=
  (cs.filter (fun c => c ≠ '_')).foldl (fun a c => 16 * a + hexDigitVal c) 0

/-- Python's `int(s, 16)` for the strings the validators feed it: every
call site first checks `s.startswith("0x")`.  CPython strips surrounding
whitespace, consumes the `0x` prefix, and accepts underscore-separated hex
digits (at least one digit).  `none` models `ValueError`. -/
def pyIntBase16 (s : String) : Option Nat :=
  match dropTrailingWs (dropLeadingWs s.toList) with
  | '0' :: 'x' :: body => if !body.isEmpty && hexTailOk body then some (hexValOf body) else none
  | _ => none

/-- Python `repr` of a JSON-derived value (ASCII, unescaped), at the
fidelity needed for the validators' f-string messages. -/
def pyRepr : Json → String
  | .null => "None"
  | .bool b => if b then "True" else "False"
  | .int n => toString n
  | .str s => "'" ++ s ++ "'"
  | .arr xs => "[" ++ String.intercalate ", " (xs.attach.map (fun x => pyRepr x.val)) ++ "]"
  | .obj kvs =>
      "\x7b" ++ String.intercalate ", "
        (kvs.attach.map (fun p => "'" ++ p.val.1 ++ "': " ++ pyRepr p.val.2)) ++ "\x7d"
decreasing_by
  · have := List.sizeOf_lt_of_mem x.property
    simp only [Json.arr.sizeOf_spec]
    omega
  · have h₁ := List.sizeOf_lt_of_mem p.property
    have h₂ : sizeOf p.val.2 < sizeOf p.val := by
      obtain ⟨⟨a, b⟩, hp⟩ := p
      simp only [Prod.mk.sizeOf_spec]
      omega
    simp only [Json.obj.sizeOf_spec]
    omega

/-- Python `str(x)` as used inside an f-string: strings are interpolated
verbatim, everything else as its `repr` (spelled out per atom shape so
that messages over atomic values evaluate inside the kernel). -/
def jdisplay : Json → String
  | .str s => s
  | .null => "None"
  | .bool b => if b then "True" else "False"
  | .int n => toString n
  | v => pyRepr v

/-- Shared address-format check, duplicated verbatim at every
address-bearing site of both validators (`validate_addrmap`,
`validate_regfile`, `validate_register`, `validate_field`,
`validate_elaborated_node`).  `loc` is the message tail, `"in addrmap"`
or `"at " ++ path`. -/
def check_address (addr : Json) (loc : String) : VResult :=
  match addr with
  | .str s =>
    if pyStartsWith s "0x" then
      match pyIntBase16 s with
      | some _ => vpass
      | none => vfail ("Invalid hex address format '" ++ s ++ "' " ++ loc)
    else vfail ("Address must be hex string or integer " ++ loc)
  | .int _ => vpass
  | .bool _ => vpass
  | _ => vfail ("Address must be hex string or integer " ++ loc)

example : check_address (.int 4096) "in addrmap" = vpass := by decide
example : check_address (.str "0x1000") "in addrmap" = vpass := by decide
example : check_address (.str "0xz") "in addrmap" ≠ vpass := by decide
example : check_address (.bool true) "in addrmap" = vpass := by decide
example : check_address .null "in addrmap" ≠ vpass := by decide
example : pyIntBase16 "0x1000" = some 4096 := by decide
example : pyIntBase16 "0x" = none := by decide
example : pyIntBase16 "0x1_0" = some 16 := by decide
example : pyIntBase16 "0x__1" = none := by decide

/-! ## `json_output_validator.py` — simplified-model schema validation -/

/-- Loop `for bit_field in ["lsb", "msb", "width"]` of `validate_field`:
first bit position that is not a non-negative int, if any. -/
def firstBadBit (kvs : List (String × Json)) : Option String :=
  ["lsb", "msb", "width"].find? (fun name =>
    match asPyInt (getD kvs name) with
    | some v => v < 0
    | none => true)

/-- Bit-range consistency part of `validate_field`.  Call sites guarantee
(via `firstBadBit`) that lsb/msb/width are ints, so the `getD`/`asPyInt`
defaults are never taken. -/
def check_bit_range (kvs : List (String × Json)) (path : String) : VResult :=
  let lsb := (asPyInt (getD kvs "lsb")).getD 0
  let msb := (asPyInt (getD kvs "msb")).getD 0
  let width := (asPyInt (getD kvs "width")).getD 0
  if msb < lsb then
    vfail ("MSB (" ++ jdisplay (getD kvs "msb") ++ ") must be >= LSB (" ++
      jdisplay (getD kvs "lsb") ++ ") at " ++ path)
  else
    let expected_width := msb - lsb + 1
    if width ≠ expected_width then
      vfail ("Width (" ++ jdisplay (getD kvs "width") ++ ") doesn't match bit range (" ++
        toString expected_width ++ ") at " ++ path)
    else vpass

/-- `JsonValidator.validate_field` of `json_output_validator.py`. -/
def validate_field (field : Json) (path : String) : VResult :=
  match field with
  | .obj kvs =>
    match ["inst_name", "absolute_address", "lsb", "msb", "width"].find?
        (fun k => (getKey k kvs).isNone) with
    | some k => vfail ("Missing required field '" ++ k ++ "' in field at " ++ path)
    | none =>
      (check_address (getD kvs "absolute_address") ("at " ++ path)).andThen (fun _ =>
      (match firstBadBit kvs with
       | some name => vfail (name ++ " must be non-negative integer at " ++ path)
       | none => vpass).andThen (fun _ =>
      check_bit_range kvs path))
  | _ => vfail ("Field at " ++ path ++ " must be an object")

/-- Loop `for i, field in enumerate(register["fields"])` of
`validate_register`: stops at the first failing field. -/
def validate_fields : List Json → String → Nat → VResult
  | [], _, _ => vpass
  | f :: rest, path, i =>
    (validate_field f (path ++ ".fields[" ++ toString i ++ "]")).andThen (fun _ =>
      validate_fields rest path (i + 1))

/-- `path`/`path_abs` array check of `validate_register`. -/
def check_paths (kvs : List (String × Json)) (path : String) : VResult :=
  match getD kvs "path", getD kvs "path_abs" with
  | .arr _, .arr _ => vpass
  | _, _ => vfail ("Path and path_abs must be arrays at " ++ path)

/-- Optional `offset` check of `validate_register`. -/
def check_offset (kvs : List (String × Json)) (path : String) : VResult :=
  match getKey "offset" kvs with
  | none => vpass
  | some v =>
    match asPyInt v with
    | some n => if n < 0 then vfail ("Offset must be non-negative integer at " ++ path) else vpass
    | none => vfail ("Offset must be non-negative integer at " ++ path)

/-- `fields` array check plus per-field loop of `validate_register`. -/
def check_fields_entry (kvs : List (String × Json)) (path : String) : VResult :=
  match getD kvs "fields" with
  | .arr fs =>
    (if fs.isEmpty then vwarn ("Fields array is empty at " ++ path) else vpass).andThen (fun _ =>
      validate_fields fs path 0)
  | _ => vfail ("Fields must be an array at " ++ path)

/-- Optional `register_width` check of `validate_register`. -/
def check_register_width (kvs : List (String × Json)) (path : String) : VResult :=
  match getKey "register_width" kvs with
  | none => vpass
  | some v =>
    match asPyInt v with
    | some n => if n ≤ 0 then vfail ("register_width must be positive integer at " ++ path) else vpass
    | none => vfail ("register_width must be positive integer at " ++ path)

/-- Optional `register_reset_value` checks of `validate_register`.  The
width-fit branch computes `(1 << register["register_width"]) - 1`; when it
runs, `check_register_width` has already established that the width is a
positive Python int, so the `Option`/`toNat` defaults below are never
taken in the composed validator. -/
def check_register_reset (kvs : List (String × Json)) (path : String) : VResult :=
  match getKey "register_reset_value" kvs with
  | none => vpass
  | some rv =>
    match rv with
    | .str s =>
      if !pyStartsWith s "0x" then
        vfail ("register_reset_value must start with '0x' at " ++ path ++ ", got '" ++ s ++ "'")
      else
        let hex_part := s.toList.drop 2
        if hex_part.isEmpty then
          vfail ("register_reset_value must contain hex digits after '0x' at " ++ path)
        else
          match hex_part.find? (fun c => !isHexDigit c) with
          | some c =>
            vfail ("register_reset_value contains invalid hex character '" ++
              String.singleton c ++ "' at " ++ path)
          | none =>
            (if hex_part.any (fun c => 'A' ≤ c && c ≤ 'F') then
              vwarn ("register_reset_value uses uppercase hex at " ++ path ++ ", lowercase preferred")
            else vpass).andThen (fun _ =>
            match getKey "register_width" kvs with
            | none => vpass
            | some wj =>
              match pyIntBase16 s with
              | some reset_int =>
                let w := (asPyInt wj).getD 0
                let max_value : Int := 2 ^ w.toNat - 1
                if (reset_int : Int) > max_value then
                  vfail ("register_reset_value " ++ s ++ " exceeds register_width " ++
                    jdisplay wj ++ " at " ++ path)
                else vpass
              | none =>
                vfail ("register_reset_value '" ++ s ++ "' is not valid hex at " ++ path))
    | _ => vfail ("register_reset_value must be string at " ++ path)

/-- `JsonValidator.validate_register` of `json_output_validator.py`. -/
def validate_register (register : Json) (path : String) : VResult :=
  match register with
  | .obj kvs =>
    match ["inst_name", "absolute_address", "path", "path_abs", "fields"].find?
        (fun k => (getKey k kvs).isNone) with
    | some k => vfail ("Missing required field '" ++ k ++ "' in register at " ++ path)
    | none =>
      (check_address (getD kvs "absolute_address") ("at " ++ path)).andThen (fun _ =>
      (check_paths kvs path).andThen (fun _ =>
      (check_offset kvs path).andThen (fun _ =>
      (check_fields_entry kvs path).andThen (fun _ =>
      (check_register_width kvs path).andThen (fun _ =>
      check_register_reset kvs path)))))
  | _ => vfail ("Register at " ++ path ++ " must be an object")

/-- `JsonValidator.validate_addrmap` of `json_output_validator.py`.  The
Python function indexes into its argument without an `isinstance(·, dict)`
guard; `none` models the `TypeError` a non-dict argument raises. -/
def validate_addrmap (addrmap : Json) : Option VResult :=
  match addrmap with
  | .obj kvs =>
    some
      (match ["inst_name", "absolute_address"].find? (fun k => (getKey k kvs).isNone) with
       | some k => vfail ("Missing required field '" ++ k ++ "' in addrmap")
       | none => check_address (getD kvs "absolute_address") "in addrmap")
  | _ => none

/-- `JsonValidator.validate_regfile` of `json_output_validator.py` (no
dict guard either, hence `Option`). -/
def validate_regfile (regfile : Json) (path : String) : Option VResult :=
  match regfile with
  | .obj kvs =>
    some
      (match ["inst_name", "absolute_address", "path", "size"].find?
          (fun k => (getKey k kvs).isNone) with
       | some k => vfail ("Missing required field '" ++ k ++ "' in regfile at " ++ path)
       | none =>
        (check_address (getD kvs "absolute_address") ("at " ++ path)).andThen (fun _ =>
        (match getD kvs "path" with
         | .arr _ => vpass
         | _ => vfail ("Path must be an array at " ++ path)).andThen (fun _ =>
        match asPyInt (getD kvs "size") with
        | some n => if n < 0 then vfail ("Size must be non-negative integer at " ++ path) else vpass
        | none => vfail ("Size must be non-negative integer at " ++ path))))
  | _ => none

/-- Loop `for i, register in enumerate(data["registers"])`: stops at the
first failing register. -/
def validate_registers : List Json → Nat → VResult
  | [], _ => vpass
  | r :: rest, i =>
    (validate_register r ("registers[" ++ toString i ++ "]")).andThen (fun _ =>
      validate_registers rest (i + 1))

/-- Loop `for i, regfile in enumerate(data["regfiles"])`. -/
def validate_regfiles : List Json → Nat → Option VResult
  | [], _ => some vpass
  | rf :: rest, i =>
    (validate_regfile rf ("regfiles[" ++ toString i ++ "]")).bind (fun r =>
      if r.ok then
        (validate_regfiles rest (i + 1)).map (fun r₂ =>
          ⟨r₂.ok, r.errors ++ r₂.errors, r.warnings ++ r₂.warnings⟩)
      else some r)

/-- `JsonValidator.validate_simplified_json` of `json_output_validator.py`.
`none` models an uncaught Python exception (non-dict document or non-dict
addrmap/regfile reached by the checks). -/
def validate_simplified_json (data : Json) : Option VResult :=
  match data with
  | .obj kvs =>
    match ["format", "version", "addrmap", "registers"].find?
        (fun k => (getKey k kvs).isNone) with
    | some k => some (vfail ("Missing required field in simplified JSON: " ++ k))
    | none =>
      if !isStrEq (getD kvs "format") "SystemRDL_SimplifiedModel" then
        some (vfail ("Invalid format: expected 'SystemRDL_SimplifiedModel', got '" ++
          jdisplay (getD kvs "format") ++ "'"))
      else
        match getD kvs "version" with
        | .str _ =>
          (validate_addrmap (getD kvs "addrmap")).bind (fun ra =>
            if !ra.ok then some ra
            else
              match getD kvs "registers" with
              | .arr regs =>
                let rWarn := if regs.isEmpty then vwarn "Registers array is empty" else vpass
                let rRegs := rWarn.andThen (fun _ => validate_registers regs 0)
                if !rRegs.ok then
                  some ⟨false, ra.errors ++ rRegs.errors, ra.warnings ++ rRegs.warnings⟩
                else
                  let rfRes : Option VResult :=
                    match getKey "regfiles" kvs with
                    | none => some vpass
                    | some (.arr rfs) => validate_regfiles rfs 0
                    | some _ => some (vfail "Regfiles field must be an array")
                  rfRes.map (fun rRf =>
                    ⟨rRf.ok, ra.errors ++ rRegs.errors ++ rRf.errors,
                      ra.warnings ++ rRegs.warnings ++ rRf.warnings⟩)
              | _ => some ⟨false, ra.errors ++ ["Registers field must be an array"], ra.warnings⟩)
        | _ => some (vfail "Version field must be a string")
  | _ => none

/-! ## `ast_output_validator.py` — AST and elaborated-model validation -/

/-- Required fields of a `rule` AST node. -/
def ruleFields : List String :=
  ["rule_name", "text", "start_line", "start_column", "stop_line", "stop_column"]

/-- Required fields of a `terminal` AST node. -/
def terminalFields : List String := ["text", "line", "column"]

mutual

/-- `JsonValidator.validate_ast_node` of `ast_output_validator.py`. -/
def validate_ast_node (node : Json) (path : String) : VResult :=
  match node with
  | .obj kvs =>
    if (getKey "type" kvs).isNone then
      vfail ("Missing required field 'type' in AST node at " ++ path)
    else
      let node_type := getD kvs "type"
      (if isStrEq node_type "rule" then
        match ruleFields.find? (fun k => (getKey k kvs).isNone) with
        | some k => vfail ("Missing field '" ++ k ++ "' in rule node at " ++ path)
        | none => vpass
      else if isStrEq node_type "terminal" then
        match terminalFields.find? (fun k => (getKey k kvs).isNone) with
        | some k => vfail ("Missing field '" ++ k ++ "' in terminal node at " ++ path)
        | none => vpass
      else vpass).andThen (fun _ =>
        match h : getKey "children" kvs with
        | some (Json.arr cs) => validate_ast_children cs path 0
        | _ => vpass)
  | _ => vfail ("AST node at " ++ path ++ " must be an object")
termination_by sizeOf node
decreasing_by
  have h₁ := getKey_sizeOf h
  simp only [Json.obj.sizeOf_spec, Json.arr.sizeOf_spec] at *
  omega

/-- Loop `for i, child in enumerate(node["children"])` of
`validate_ast_node`: stops at the first failing child. -/
def validate_ast_children (cs : List Json) (path : String) (i : Nat) : VResult :=
  match cs with
  | [] => vpass
  | c :: rest =>
    (validate_ast_node c (path ++ ".children[" ++ toString i ++ "]")).andThen (fun _ =>
      validate_ast_children rest path (i + 1))
termination_by sizeOf cs
decreasing_by
  all_goals simp only [List.cons.sizeOf_spec]
  all_goals omega

end

/-- `node_type` enum check of `validate_elaborated_node`: unknown kinds
warn, never fail. -/
def nodeTypeCheck (kvs : List (String × Json)) (path : String) : VResult :=
  let nt := getD kvs "node_type"
  if ["addrmap", "regfile", "reg", "field", "mem"].any (fun s => isStrEq nt s) then vpass
  else vwarn ("Unknown node_type '" ++ jdisplay nt ++ "' at " ++ path)

/-- `size` check of `validate_elaborated_node`. -/
def check_size (kvs : List (String × Json)) (path : String) : VResult :=
  match asPyInt (getD kvs "size") with
  | some n => if n < 0 then vfail ("Size must be non-negative integer at " ++ path) else vpass
  | none => vfail ("Size must be non-negative integer at " ++ path)

mutual

/-- `JsonValidator.validate_elaborated_node` of `ast_output_validator.py`. -/
def validate_elaborated_node (node : Json) (path : String) : VResult :=
  match node with
  | .obj kvs =>
    match ["node_type", "inst_name", "absolute_address", "size"].find?
        (fun k => (getKey k kvs).isNone) with
    | some k => vfail ("Missing required field '" ++ k ++ "' in elaborated node at " ++ path)
    | none =>
      (nodeTypeCheck kvs path).andThen (fun _ =>
      (check_address (getD kvs "absolute_address") ("at " ++ path)).andThen (fun _ =>
      (check_size kvs path).andThen (fun _ =>
        match h : getKey "children" kvs with
        | some (Json.arr cs) => validate_elaborated_children cs path 0
        | _ => vpass)))
  | _ => vfail ("Elaborated node at " ++ path ++ " must be an object")
termination_by sizeOf node
decreasing_by
  have h₁ := getKey_sizeOf h
  simp only [Json.obj.sizeOf_spec, Json.arr.sizeOf_spec] at *
  omega

/-- Loop `for i, child in enumerate(node["children"])` of
`validate_elaborated_node`. -/
def validate_elaborated_children (cs : List Json) (path : String) (i : Nat) : VResult :=
  match cs with
  | [] => vpass
  | c :: rest =>
    (validate_elaborated_node c (path ++ ".children[" ++ toString i ++ "]")).andThen (fun _ =>
      validate_elaborated_children rest path (i + 1))
termination_by sizeOf cs
decreasing_by
  all_goals simp only [List.cons.sizeOf_spec]
  all_goals omega

end

/-- Loop `for i, node in enumerate(data["model"])` of
`validate_elaborated_json`. -/
def validate_elaborated_nodes : List Json → Nat → VResult
  | [], _ => vpass
  | n :: rest, i =>
    (validate_elaborated_node n ("model[" ++ toString i ++ "]")).andThen (fun _ =>
      validate_elaborated_nodes rest (i + 1))

/-- `JsonValidator.validate_elaborated_json` of `ast_output_validator.py`.
`none` models the `TypeError` of a non-dict document. -/
def validate_elaborated_json (data : Json) : Option VResult :=
  match data with
  | .obj kvs =>
    match ["format", "version", "model"].find? (fun k => (getKey k kvs).isNone) with
    | some k => some (vfail ("Missing required field in elaborated JSON: " ++ k))
    | none =>
      if !isStrEq (getD kvs "format") "SystemRDL_ElaboratedModel" then
        some (vfail ("Invalid format: expected 'SystemRDL_ElaboratedModel', got '" ++
          jdisplay (getD kvs "format") ++ "'"))
      else
        match getD kvs "version" with
        | .str _ =>
          match getD kvs "model" with
          | .arr nodes =>
            some ((if nodes.isEmpty then vwarn "Model array is empty" else vpass).andThen
              (fun _ => validate_elaborated_nodes nodes 0))
          | _ => some (vfail "Model field must be an array")
        | _ => some (vfail "Version field must be a string")
  | _ => none

/-- `JsonValidator.find_node_type_in_ast` of `ast_output_validator.py`:
depth-first scan for a node whose `rule_name` equals `node_type`.  The
Python recursion enters `node["children"]` whenever the key is present,
without a list guard; iterating a non-empty string/dict there (or any
non-iterable) raises, which `none` models.  Iterating an empty string or
dict silently yields nothing, like an empty list. -/
def find_node_type_in_ast (nodes : List Json) (node_type : String) : Option Bool :=
  match nodes with
  | [] => some false
  | Json.obj kvs :: rest =>
    if (match getKey "rule_name" kvs with
        | some v => isStrEq v node_type
        | none => false) then
      some true
    else
      match h : getKey "children" kvs with
      | some (Json.arr cs) =>
        (find_node_type_in_ast cs node_type).bind (fun b =>
          if b then some true else find_node_type_in_ast rest node_type)
      | some (Json.str s) =>
        if s.isEmpty then find_node_type_in_ast rest node_type else none
      | some (Json.obj ckvs) =>
        if ckvs.isEmpty then find_node_type_in_ast rest node_type else none
      | some _ => none
      | none => find_node_type_in_ast rest node_type
  | _ :: _ => none
termination_by sizeOf nodes
decreasing_by
  · have h₁ := getKey_sizeOf h
    simp only [List.cons.sizeOf_spec, Json.obj.sizeOf_spec, Json.arr.sizeOf_spec] at *
    omega
  all_goals simp only [List.cons.sizeOf_spec] <;> omega

/-- The generator expression
`any(node.get("node_type") == "addrmap" for node in elaborated_data["model"])`
of `validate_content_match` (short-circuiting; a non-dict element reached
before a match raises `AttributeError`, modelled by `none`). -/
def anyElabAddrmap : List Json → Option Bool
  | [] => some false
  | Json.obj kvs :: rest =>
    if (match getKey "node_type" kvs with
        | some v => isStrEq v "addrmap"
        | none => false) then
      some true
    else anyElabAddrmap rest
  | _ :: _ => none

/-- `JsonValidator.validate_content_match` of `ast_output_validator.py`.
The `rdl_file` argument of the Python method is unused.  `none` models an
uncaught exception (documents without `ast`/`model` array containers; a
validated pair always has them). -/
def validate_content_match (ast_data elaborated_data : Json) (rdl_file : String) :
    Option VResult :=
  match ast_data, elaborated_data with
  | .obj akvs, .obj ekvs =>
    match getKey "ast" akvs, getKey "model" ekvs with
    | some (.arr astNodes), some (.arr modelNodes) =>
      let w₁ : List String :=
        if astNodes.isEmpty && !modelNodes.isEmpty then
          ["AST is empty but elaborated model has content"]
        else []
      let w₂ : List String :=
        if modelNodes.isEmpty && !astNodes.isEmpty then
          ["Elaborated model is empty but AST has content"]
        else []
      (find_node_type_in_ast astNodes "addrmap").bind (fun has_addrmap_ast =>
        (anyElabAddrmap modelNodes).map (fun has_addrmap_elaborated =>
          if has_addrmap_ast && !has_addrmap_elaborated then
            ⟨false, ["AST contains addrmap but elaborated model doesn't"], w₁ ++ w₂⟩
          else ⟨true, [], w₁ ++ w₂⟩))
    | _, _ => none
  | _, _ => none

/-! ## `compare_implementations.py` — error extraction and similarity -/

/-- First occurrence split: `s.split(sep, 1)[1]`, defined when `sep`
occurs in `s`.  Returns the part after the first occurrence of `sep`. -/
def afterFirstSub (pat : List Char) : List Char → List Char
  | [] => []
  | c :: rest =>
    if pat.isPrefixOf (c :: rest) then (c :: rest).drop pat.length
    else afterFirstSub pat rest

/-- Python `s.split(sep)` for a single-character separator: splits at
every occurrence, keeping empty parts (so `"".split(sep) == ['']`). -/
def splitAllChar : List Char → Char → List (List Char)
  | [], _ => [[]]
  | c :: rest, sep =>
    let r := splitAllChar rest sep
    if c = sep then [] :: r
    else
      match r with
      | [] => [[c]]
      | hd :: tl => (c :: hd) :: tl

/-- Python `s.split(sep, maxsplit)` for a single-character separator:
splits at the first `n` occurrences. -/
def splitCharLimited : List Char → Char → Nat → List (List Char)
  | cs, _, 0 => [cs]
  | cs, sep, n + 1 =>
    match breakAtChar cs sep with
    | none => [cs]
    | some (pre, post) => pre :: splitCharLimited post sep n
where
  /-- Split at the first occurrence of `sep`, if any. -/
  breakAtChar : List Char → Char → Option (List Char × List Char)
    | [], _ => none
    | c :: rest, sep =>
      if c = sep then some ([], rest)
      else (breakAtChar rest sep).map (fun p => (c :: p.1, p.2))

/-- Is this line an error line?  Case-insensitive substring test against
the five fixed patterns of `extract_error_messages`. -/
def is_error_line (line : String) : Bool :=
  let lw := lowerStr line
  containsSub lw "error:" || containsSub lw "fatal:" ||
    containsSub lw "field overlap detected" || containsSub lw "field exceeds" ||
    containsSub lw "overlaps with"

/-- Prefix-stripping step of `extract_error_messages`: strip the line,
then remove a C++ `"Line X:Y - "` location prefix, or else a Python
`file:line:col:` prefix (three leading colon-separated components). -/
def clean_error_line (line : String) : String :=
  let error := stripWs line
  if containsSub error " - " && containsSub error "Line " then
    ⟨afterFirstSub " - ".toList error.toList⟩
  else if containsSub error ":" then
    match splitCharLimited error.toList ':' 3 with
    | [_, _, _, p₃] => stripWs ⟨p₃⟩
    | _ => error
  else error

/-- `ImplementationComparator.extract_error_messages`: the cleaned error
lines of an output text, in order. -/
def extract_error_messages (output : String) : List String :=
  (((splitAllChar output.toList '\n').map (fun l => (⟨l⟩ : String))).filter
    is_error_line).map clean_error_line

/-- The three error concepts recognised by `errors_similar`. -/
inductive ErrConcept where
  | overlap : ErrConcept
  | boundary : ErrConcept
  | power_of_2 : ErrConcept
deriving DecidableEq

/-- Concept tags of one extracted error message (substring tests on the
lowercased message, as in the `for error in …` loops of
`errors_similar`). -/
def conceptsOf (error : String) : List ErrConcept :=
  let lw := lowerStr error
  (if containsSub lw "overlap" then [ErrConcept.overlap] else []) ++
  (if containsSub lw "exceed" || containsSub lw "boundary" then [ErrConcept.boundary] else []) ++
  (if containsSub lw "power of 2" then [ErrConcept.power_of_2] else [])

/-- Union of the concept tags of a list of messages (the Python code
accumulates them into a `set`; only membership matters downstream). -/
def allConcepts (errors : List String) : List ErrConcept :=
  errors.foldr (fun e acc => conceptsOf e ++ acc) []

/-- `ImplementationComparator.errors_similar`: trivially similar when both
lists are empty, never similar when exactly one is empty, otherwise
similar iff the two concept sets intersect. -/
def errors_similar (cpp_errors python_errors : List String) : Bool :=
  if cpp_errors.isEmpty && python_errors.isEmpty then true
  else if cpp_errors.isEmpty || python_errors.isEmpty then false
  else (allConcepts cpp_errors).any (fun c => (allConcepts python_errors).contains c)

/-! ## Expectation resolution (`check_expect_elaboration_failure`)

The identical method appears in `ImplementationComparator`
(`compare_implementations.py`) and in both `JsonTester` classes
(`ast_output_validator.py`, `json_output_validator.py`); one embedding
covers all three. -/

/-- Python `os.path.basename` (POSIX): the part after the last `/`. -/
def pyBasename (p : String) : List Char :=
  (p.toList.reverse.takeWhile (fun c => c ≠ '/')).reverse

/-- Index of the last occurrence of `c`, if any. -/
def lastIdxOf (c : Char) : List Char → Option Nat
  | [] => none
  | x :: xs =>
    match lastIdxOf c xs with
    | some i => some (i + 1)
    | none => if x = c then some 0 else none

/-- Stem part of Python `os.path.splitext` on a basename: cut at the last
dot unless every character before it is a dot (leading dots are not an
extension separator). -/
def pySplitextStem (b : List Char) : List Char :=
  match lastIdxOf '.' b with
  | some i => if (b.take i).any (fun c => c ≠ '.') then b.take i else b
  | none => b

/-- Method 1 of `check_expect_elaboration_failure`: does the base name
with its extension stripped end in `_fail`? -/
def stemEndsFail (rdl_path : String) : Bool :=
  endsWithL (pySplitextStem (pyBasename rdl_path)) "_fail".toList

/-- `check_expect_elaboration_failure(rdl_path)`.  File content is passed
explicitly: `some lines` is a readable file split into lines, `none` is
any exception while opening/reading (the Python `except` returns `False`,
i.e. expect success).  The `_fail`-stem test precedes any file access, so
it wins regardless of content or readability. -/
def check_expect_elaboration_failure (rdl_path : String) (content : Option (List String)) :
    Bool :=
  if stemEndsFail rdl_path then true
  else
    match content with
    | some lines =>
      (lines.take 10).any (fun line => containsSub line "EXPECT_ELABORATION_FAILURE")
    | none => false

example : pyBasename "dir/test_bad_fail.rdl" = "test_bad_fail.rdl".toList := by decide
example : pySplitextStem "test_bad_fail.rdl".toList = "test_bad_fail".toList := by decide
example : pySplitextStem ".bashrc".toList = ".bashrc".toList := by decide
example : check_expect_elaboration_failure "test_bad_fail.rdl" none = true := by decide
example : check_expect_elaboration_failure "test_ok.rdl" none = false := by decide
example :
    check_expect_elaboration_failure "test_ok.rdl"
      (some ["a", "b", "// EXPECT_ELABORATION_FAILURE"]) = true := by decide
example :
    extract_error_messages "Line 5 - overlaps with previous field" =
      ["overlaps with previous field"] := by decide
example :
    errors_similar ["field overlap detected between A and B"]
      ["Line 5 - overlaps with previous field"] = true := by decide
example : errors_similar [] ["error: x"] = false := by decide

/-! ## Claim theorems -/

theorem allConcepts_nil : allConcepts [] = [] := rfl

theorem allConcepts_cons (e : String) (t : List String) :
    allConcepts (e :: t) = conceptsOf e ++ allConcepts t := rfl

theorem mem_allConcepts {c : ErrConcept} {errs : List String} :
    c ∈ allConcepts errs ↔ ∃ m ∈ errs, c ∈ conceptsOf m := by
  induction errs with
  | nil => simp [allConcepts_nil]
  | cons e t ih => simp [allConcepts_cons, ih]

/-- Spec-side concept bucketing, following the spec's wording: a message
maps to `overlap` when it case-insensitively contains "overlap", to
`boundary` when it contains "exceed" or "boundary", to `power_of_2` when
it contains "power of 2". -/
def specConceptTags (msg : String) : List ErrConcept :=
  (if containsSub (lowerStr msg) (lowerStr "overlap") then [ErrConcept.overlap] else []) ++
  (if containsSub (lowerStr msg) (lowerStr "exceed") ||
      containsSub (lowerStr msg) (lowerStr "boundary") then [ErrConcept.boundary] else []) ++
  (if containsSub (lowerStr msg) (lowerStr "power of 2") then [ErrConcept.power_of_2] else [])

/-- Spec-side similarity relation on extracted error-message lists. -/
def specSimilar (a b : List String) : Prop :=
  (a = [] ∧ b = []) ∨
    (a ≠ [] ∧ b ≠ [] ∧
      ∃ c, (∃ m ∈ a, c ∈ specConceptTags m) ∧ (∃ m ∈ b, c ∈ specConceptTags m))

theorem conceptsOf_eq_specConceptTags : conceptsOf = specConceptTags := by
  funext msg
  have h₁ : lowerStr "overlap" = "overlap" := by decide
  have h₂ : lowerStr "exceed" = "exceed" := by decide
  have h₃ : lowerStr "boundary" = "boundary" := by decide
  have h₄ : lowerStr "power of 2" = "power of 2" := by decide
  simp only [conceptsOf, specConceptTags, h₁, h₂, h₃, h₄]

/-- C2: `errors_similar` returns true exactly when both extracted
error-message lists are empty, or both are non-empty and their concept-tag
sets (derived by case-insensitive substring matching: "overlap" →
`overlap`, "exceed"/"boundary" → `boundary`, "power of 2" → `power_of_2`)
intersect.  An empty list against a non-empty list is never similar, and
the two differently-worded overlap messages of the claim are classified
similar via the shared `overlap` concept. -/
theorem c2_errors_similar_concept_intersection :
    (∀ a b : List String, errors_similar a b = true ↔ specSimilar a b) ∧
    errors_similar ["field overlap detected between A and B"]
      ["Line 5 - overlaps with previous field"] = true ∧
    errors_similar (extract_error_messages "field overlap detected between A and B")
      (extract_error_messages "Line 5 - overlaps with previous field") = true ∧
    errors_similar [] ["error: field overlap detected"] = false ∧
    errors_similar ["error: field overlap detected"] [] = false := by
  refine ⟨?_, by decide, by decide, by decide, by decide⟩
  intro a b
  unfold errors_similar specSimilar
  rw [← conceptsOf_eq_specConceptTags]
  cases a with
  | nil =>
    cases b with
    | nil => simp
    | cons y ys => simp
  | cons x xs =>
    cases b with
    | nil => simp
    | cons y ys =>
      rw [show ((x :: xs).isEmpty && (y :: ys).isEmpty) = false from rfl,
        show ((x :: xs).isEmpty || (y :: ys).isEmpty) = false from rfl]
      norm_num
      simp only [mem_allConcepts]
      simp

/-- C3: the expectation resolver returns expect-failure iff the file's
base name with extension stripped ends in `_fail`, or else the marker
`EXPECT_ELABORATION_FAILURE` occurs in the first 10 lines of content; a
`_fail` stem wins regardless of content (the filename test precedes any
file access), and an unreadable file (`none`) defaults to expect-success. -/
theorem c3_expectation_resolution :
    (∀ (rdl_path : String) (content : Option (List String)),
      check_expect_elaboration_failure rdl_path content = true ↔
        (stemEndsFail rdl_path = true ∨
          ∃ lines, content = some lines ∧
            (lines.take 10).any
              (fun line => containsSub line "EXPECT_ELABORATION_FAILURE") = true)) ∧
    (∀ (rdl_path : String) (content : Option (List String)),
      stemEndsFail rdl_path = true →
      check_expect_elaboration_failure rdl_path content = true) ∧
    (∀ content, check_expect_elaboration_failure "test_bad_fail.rdl" content = true) ∧
    check_expect_elaboration_failure "test_ok.rdl"
      (some ["line1", "line2", "// EXPECT_ELABORATION_FAILURE"]) = true ∧
    check_expect_elaboration_failure "test_ok.rdl" none = false := by
  refine ⟨?_, ?_, ?_, by decide, by decide⟩
  · intro rdl_path content
    by_cases h : stemEndsFail rdl_path = true
    · simp [check_expect_elaboration_failure, h]
    · have h' : stemEndsFail rdl_path = false := by simpa using h
      cases content with
      | none => simp [check_expect_elaboration_failure, h']
      | some lines => simp [check_expect_elaboration_failure, h']
  · intro rdl_path content h
    simp [check_expect_elaboration_failure, h]
  · intro content
    simp [check_expect_elaboration_failure,
      show stemEndsFail "test_bad_fail.rdl" = true from by decide]

theorem c3_expectation_resolution_witness :
    check_expect_elaboration_failure "dir/x_fail.rdl" (some ["no marker"]) = true :=
  c3_expectation_resolution.2.1 "dir/x_fail.rdl" (some ["no marker"]) (by decide)

/-- Numeric denotation of an address value, for the two accepted
representations (Python would obtain it via `int(addr, 16)` for hex
strings; integer and boolean values are used as-is). -/
def addressValue : Json → Option Int
  | .int n => some n
  | .bool b => some (if b then 1 else 0)
  | .str s => (pyIntBase16 s).map (fun n => (n : Int))
  | _ => none

/-- C5 counterexample: the claim says a non-int non-string
`absolute_address` is always a hard error, but `isinstance(True, int)`
holds in Python, so the JSON boolean `true` — which is neither a JSON
integer nor a JSON string — is accepted by `validate_addrmap` with no
error and no warning. -/
theorem c5_bool_address_counterexample :
    validate_addrmap
      (Json.obj [("inst_name", Json.str "top"), ("absolute_address", Json.bool true)]) =
      some ⟨true, [], []⟩ := by decide

/-- C5 (amended): an address value is accepted iff it is an integer, a
boolean (Python treats `bool` as `int`), or a string starting with `0x`
that `int(·, 16)` parses; every other shape is a hard error, an accepted
address logs nothing, and `4096` and `"0x1000"` both validate and denote
the same address 4096. -/
theorem c5_address_validation_amended :
    (∀ (addr : Json) (loc : String),
      (check_address addr loc).ok = true ↔
        ((∃ n, addr = Json.int n) ∨ (∃ b, addr = Json.bool b) ∨
          (∃ s, addr = Json.str s ∧ pyStartsWith s "0x" = true ∧
            (pyIntBase16 s).isSome = true))) ∧
    (∀ (addr : Json) (loc : String),
      (check_address addr loc).ok = true → check_address addr loc = vpass) ∧
    check_address (Json.int 4096) "in addrmap" = vpass ∧
    check_address (Json.str "0x1000") "in addrmap" = vpass ∧
    addressValue (Json.int 4096) = some 4096 ∧
    addressValue (Json.str "0x1000") = some 4096 ∧
    validate_addrmap
      (Json.obj [("inst_name", Json.str "top"), ("absolute_address", Json.int 4096)]) =
      some vpass ∧
    validate_addrmap
      (Json.obj [("inst_name", Json.str "top"), ("absolute_address", Json.str "0x1000")]) =
      some vpass := by
  refine ⟨?_, ?_, by decide, by decide, by decide, by decide, by decide, by decide⟩
  · intro addr loc
    cases addr with
    | int n => simp [check_address, vpass]
    | bool b => simp [check_address, vpass]
    | null => simp [check_address, vfail]
    | arr xs => simp [check_address, vfail]
    | obj kvs => simp [check_address, vfail]
    | str s =>
      simp only [check_address]
      by_cases hpre : pyStartsWith s "0x" = true
      · cases hx : pyIntBase16 s with
        | some v => simp [hpre, hx, vpass]
        | none => simp [hpre, hx, vfail]
      · have hpre' : pyStartsWith s "0x" = false := by simpa using hpre
        simp [hpre', vfail]
  · intro addr loc h
    cases addr with
    | int n => rfl
    | bool b => rfl
    | null => exact absurd h (by simp [check_address, vfail])
    | arr xs => exact absurd h (by simp [check_address, vfail])
    | obj kvs => exact absurd h (by simp [check_address, vfail])
    | str s =>
      simp only [check_address] at h ⊢
      by_cases hpre : pyStartsWith s "0x" = true
      · cases hx : pyIntBase16 s with
        | some v => simp [hpre, hx]
        | none => simp [hpre, hx, vfail] at h
      · have hpre' : pyStartsWith s "0x" = false := by simpa using hpre
        simp [hpre', vfail] at h

theorem c5_address_validation_amended_witness :
    check_address (Json.str "0xff") "at registers[0]" = vpass :=
  c5_address_validation_amended.2.1 (Json.str "0xff") "at registers[0]" (by decide)

/-- C9 counterexample: the claim says a negative integer address, or one
of `2^64` or more, is rejected with a hard error; the code performs no
range check on integer addresses, so both documents validate with no
error and no warning. -/
theorem c9_address_range_counterexample :
    validate_addrmap
      (Json.obj [("inst_name", Json.str "top"), ("absolute_address", Json.int (-5))]) =
      some ⟨true, [], []⟩ ∧
    validate_addrmap
      (Json.obj [("inst_name", Json.str "top"),
        ("absolute_address", Json.int 18446744073709551616)]) =
      some ⟨true, [], []⟩ ∧
    (-5 : Int) < 0 ∧ (18446744073709551616 : Int) = 2 ^ 64 := by
  refine ⟨by decide, by decide, by decide, by norm_num⟩

/-- C9 (amended): integer-typed `absolute_address` values are accepted
as-is with no range check at all — every integer, negative or however
large, passes the address check with no error and no warning. -/
theorem c9_integer_address_accepted_amended :
    ∀ (n : Int) (loc : String), check_address (Json.int n) loc = vpass := by
  intro n loc
  rfl

theorem vpass_andThen (k : Unit → VResult) : vpass.andThen k = k () := by
  rcases hk : k () with ⟨o, e, w⟩
  simp [VResult.andThen, vpass, hk]

/-- C7: an elaborated document whose `format` is the exact tag, whose
`version` is a string and whose `model` is the empty array validates
successfully, appending exactly one warning ("Model array is empty") and
zero errors. -/
theorem c7_empty_model_single_warning :
    ∀ (kvs : List (String × Json)) (v : String),
      getKey "format" kvs = some (Json.str "SystemRDL_ElaboratedModel") →
      getKey "version" kvs = some (Json.str v) →
      getKey "model" kvs = some (Json.arr []) →
      validate_elaborated_json (Json.obj kvs) = some ⟨true, [], ["Model array is empty"]⟩ := by
  intro kvs v h₁ h₂ h₃
  simp only [validate_elaborated_json]
  have hfind : ["format", "version", "model"].find? (fun k => (getKey k kvs).isNone) = none := by
    simp [List.find?, h₁, h₂, h₃]
  rw [hfind]
  simp [getD, h₁, h₂, h₃, isStrEq, vwarn, vpass, validate_elaborated_nodes, VResult.andThen]

theorem c7_empty_model_single_warning_witness :
    validate_elaborated_json
      (Json.obj [("format", Json.str "SystemRDL_ElaboratedModel"),
        ("version", Json.str "1.0"), ("model", Json.arr [])]) =
      some ⟨true, [], ["Model array is empty"]⟩ :=
  c7_empty_model_single_warning
    [("format", Json.str "SystemRDL_ElaboratedModel"),
      ("version", Json.str "1.0"), ("model", Json.arr [])]
    "1.0" rfl rfl rfl

/-- C10: an AST node whose `type` field is present but neither `"rule"`
nor `"terminal"` triggers no schema check at all — no error, no warning —
and the validator still recurses into a `children` array when one is
present; with no (list-valued) `children` entry the node validates with
nothing logged. -/
theorem c10_unknown_ast_node_type_silent :
    (∀ (kvs : List (String × Json)) (path : String) (t : Json) (cs : List Json),
      getKey "type" kvs = some t →
      isStrEq t "rule" = false →
      isStrEq t "terminal" = false →
      getKey "children" kvs = some (Json.arr cs) →
      validate_ast_node (Json.obj kvs) path = validate_ast_children cs path 0) ∧
    (∀ (kvs : List (String × Json)) (path : String) (t : Json),
      getKey "type" kvs = some t →
      isStrEq t "rule" = false →
      isStrEq t "terminal" = false →
      (∀ cs : List Json, getKey "children" kvs ≠ some (Json.arr cs)) →
      validate_ast_node (Json.obj kvs) path = ⟨true, [], []⟩) := by
  constructor
  · intro kvs path t cs ht hr hterm hc
    simp only [validate_ast_node, ht, Option.isNone_some, Bool.false_eq_true, if_false, getD,
      Option.getD_some, hr, hterm, vpass_andThen]
    split
    · simp_all
    · simp_all
  · intro kvs path t ht hr hterm hnc
    simp only [validate_ast_node, ht, Option.isNone_some, Bool.false_eq_true, if_false, getD,
      Option.getD_some, hr, hterm, vpass_andThen]
    rfl

theorem c10_unknown_ast_node_type_silent_witness :
    validate_ast_node (Json.obj [("type", Json.str "comment")]) "ast[0]" = ⟨true, [], []⟩ :=
  c10_unknown_ast_node_type_silent.2 [("type", Json.str "comment")] "ast[0]"
    (Json.str "comment") rfl (by decide) (by decide) (fun cs h => by cases h)

/-- C6: if the parse tree contains (by recursive scan) a node whose
`rule_name` is `addrmap` while no elaborated top-level node has
`node_type == "addrmap"`, the consistency check logs a hard error and
fails; when the elaborated model does contain such a node the check
passes with no error.  The concrete pair at the end exhibits the flip:
removing the addrmap node from the elaborated output (AST unchanged)
turns a clean pass into the hard error. -/
theorem c6_addrmap_consistency :
    (∀ (akvs ekvs : List (String × Json)) (astNodes modelNodes : List Json)
        (rdl : String) (r : VResult),
      getKey "ast" akvs = some (Json.arr astNodes) →
      getKey "model" ekvs = some (Json.arr modelNodes) →
      find_node_type_in_ast astNodes "addrmap" = some true →
      anyElabAddrmap modelNodes = some false →
      validate_content_match (Json.obj akvs) (Json.obj ekvs) rdl = some r →
      r.ok = false ∧ "AST contains addrmap but elaborated model doesn't" ∈ r.errors) ∧
    (∀ (akvs ekvs : List (String × Json)) (astNodes modelNodes : List Json)
        (rdl : String) (r : VResult),
      getKey "ast" akvs = some (Json.arr astNodes) →
      getKey "model" ekvs = some (Json.arr modelNodes) →
      find_node_type_in_ast astNodes "addrmap" = some true →
      anyElabAddrmap modelNodes = some true →
      validate_content_match (Json.obj akvs) (Json.obj ekvs) rdl = some r →
      r.ok = true ∧ r.errors = []) ∧
    validate_content_match
      (Json.obj [("ast", Json.arr [Json.obj [("rule_name", Json.str "addrmap")]])])
      (Json.obj [("model", Json.arr [Json.obj [("node_type", Json.str "addrmap")]])])
      "t.rdl" = some ⟨true, [], []⟩ ∧
    validate_content_match
      (Json.obj [("ast", Json.arr [Json.obj [("rule_name", Json.str "addrmap")]])])
      (Json.obj [("model", Json.arr [Json.obj [("node_type", Json.str "reg")]])])
      "t.rdl" =
      some ⟨false, ["AST contains addrmap but elaborated model doesn't"], []⟩ := by
  have hfind : find_node_type_in_ast [Json.obj [("rule_name", Json.str "addrmap")]]
      "addrmap" = some true := by
    simp [find_node_type_in_ast, getKey, isStrEq]
  refine ⟨?_, ?_, ?_, ?_⟩
  · intro akvs ekvs astNodes modelNodes rdl r ha hm hf hy hr
    simp only [validate_content_match, ha, hm] at hr
    simp [hf, hy] at hr
    cases hr
    simp
  · intro akvs ekvs astNodes modelNodes rdl r ha hm hf hy hr
    simp only [validate_content_match, ha, hm] at hr
    simp [hf, hy] at hr
    cases hr
    simp
  · simp [validate_content_match, getKey, anyElabAddrmap, isStrEq, hfind]
  · simp [validate_content_match, getKey, anyElabAddrmap, isStrEq, hfind]

theorem c6_addrmap_consistency_witness :
    (⟨false, ["AST contains addrmap but elaborated model doesn't"], []⟩ : VResult).ok = false ∧
      "AST contains addrmap but elaborated model doesn't" ∈
        (⟨false, ["AST contains addrmap but elaborated model doesn't"], []⟩ : VResult).errors :=
  c6_addrmap_consistency.1
    [("ast", Json.arr [Json.obj [("rule_name", Json.str "addrmap")]])]
    [("model", Json.arr [Json.obj [("node_type", Json.str "reg")]])]
    [Json.obj [("rule_name", Json.str "addrmap")]]
    [Json.obj [("node_type", Json.str "reg")]]
    "t.rdl" ⟨false, ["AST contains addrmap but elaborated model doesn't"], []⟩
    rfl rfl
    (by simp [find_node_type_in_ast, getKey, isStrEq])
    rfl
    (by simp [validate_content_match, getKey, anyElabAddrmap, isStrEq,
      find_node_type_in_ast])

theorem vfail_andThen (e : String) (k : Unit → VResult) : (vfail e).andThen k = vfail e := by
  simp [VResult.andThen, vfail]

theorem fail_andThen (r : VResult) (k : Unit → VResult) (h : r.ok = false) :
    r.andThen k = r := by
  simp [VResult.andThen, h]

theorem subOccurs_eq_true_iff {pat s : List Char} : subOccurs pat s = true ↔ pat <:+: s := by
  induction s with
  | nil =>
    simp only [subOccurs, List.isEmpty_iff, List.infix_nil]
  | cons c rest ih =>
    simp only [subOccurs, Bool.or_eq_true, List.isPrefixOf_iff_prefix, ih, List.infix_cons_iff]

/-- A message of the shape `a ++ path` contains `path` as a substring. -/
theorem containsSub_append_self (a path : String) : containsSub (a ++ path) path = true := by
  unfold containsSub
  rw [subOccurs_eq_true_iff]
  exact (show path.toList <:+ a.toList ++ path.toList from List.suffix_append _ _).isInfix

/-- `check_address` never warns; its verdict fully determines its log:
success logs nothing, failure logs exactly one message ending in `loc`. -/
theorem check_address_ok_eq_vpass {addr : Json} {loc : String}
    (h : (check_address addr loc).ok = true) : check_address addr loc = vpass := by
  cases addr with
  | int n => rfl
  | bool b => rfl
  | null => exact absurd h (by simp [check_address, vfail])
  | arr xs => exact absurd h (by simp [check_address, vfail])
  | obj kvs => exact absurd h (by simp [check_address, vfail])
  | str s =>
    simp only [check_address] at h ⊢
    by_cases hpre : pyStartsWith s "0x" = true
    · cases hx : pyIntBase16 s with
      | some v => simp [hpre, hx]
      | none => simp [hpre, hx, vfail] at h
    · have hpre' : pyStartsWith s "0x" = false := by simpa using hpre
      simp [hpre', vfail] at h

theorem check_address_fail {addr : Json} {loc : String}
    (h : (check_address addr loc).ok = false) :
    ∃ a, (check_address addr loc).errors = [a ++ loc] := by
  cases addr with
  | int n => simp [check_address, vpass] at h
  | bool b => simp [check_address, vpass] at h
  | null => exact ⟨"Address must be hex string or integer ", rfl⟩
  | arr xs => exact ⟨"Address must be hex string or integer ", rfl⟩
  | obj kvs => exact ⟨"Address must be hex string or integer ", rfl⟩
  | str s =>
    simp only [check_address] at h ⊢
    by_cases hpre : pyStartsWith s "0x" = true
    · cases hx : pyIntBase16 s with
      | some v => simp [hpre, hx, vpass] at h
      | none =>
        simp only [hpre, if_true, hx]
        exact ⟨"Invalid hex address format '" ++ s ++ "' ", by simp [vfail, String.append_assoc]⟩
    · have hpre' : pyStartsWith s "0x" = false := by simpa using hpre
      simp only [hpre', Bool.false_eq_true, if_false]
      exact ⟨"Address must be hex string or integer ", rfl⟩

/-- Bad register used twice in the C8 document: its single field has
`lsb = 4`, `msb = 2`, `width = 3`, an inconsistent bit range. -/
def c8badReg (n : String) : Json :=
  Json.obj [("inst_name", Json.str n), ("absolute_address", Json.int 0),
    ("path", Json.arr []), ("path_abs", Json.arr []),
    ("fields", Json.arr [Json.obj [("inst_name", Json.str "f"),
      ("absolute_address", Json.int 0),
      ("lsb", Json.int 4), ("msb", Json.int 2), ("width", Json.int 3)]])]

/-- Simplified document with two independent structural violations: both
`registers[0]` and `registers[1]` carry an inconsistent bit range. -/
def c8doc : Json :=
  Json.obj [("format", Json.str "SystemRDL_SimplifiedModel"),
    ("version", Json.str "1.0"),
    ("addrmap", Json.obj [("inst_name", Json.str "top"), ("absolute_address", Json.int 0)]),
    ("registers", Json.arr [c8badReg "r0", c8badReg "r1"])]

/-- C8 counterexample: a document with two independently violating
registers yields exactly one error (about `registers[0]`), not the
complete set — the run stops at the first hard error, contradicting the
claim that all hard errors are collected.  The second conjunct shows the
second register is a genuine independent violation: validated on its own
it also fails. -/
theorem c8_first_error_only_counterexample :
    validate_simplified_json c8doc =
      some ⟨false, ["MSB (2) must be >= LSB (4) at registers[0].fields[0]"], []⟩ ∧
    validate_register (c8badReg "r1") "registers[1]" =
      vfail "MSB (2) must be >= LSB (4) at registers[1].fields[0]" := by
  constructor
  · decide
  · decide

/-- C8 (amended): validation short-circuits — once a register fails, the
remaining registers are never examined, so a single run reports only the
errors accumulated up to and including the first failing register. -/
theorem c8_short_circuit_amended :
    ∀ (r : Json) (rest : List Json) (i : Nat),
      (validate_register r ("registers[" ++ toString i ++ "]")).ok = false →
      validate_registers (r :: rest) i =
        validate_register r ("registers[" ++ toString i ++ "]") := by
  intro r rest i h
  simp only [validate_registers]
  exact fail_andThen _ _ h

theorem c8_short_circuit_amended_witness :
    validate_registers [c8badReg "r0", c8badReg "r1"] 0 =
      validate_register (c8badReg "r0") ("registers[" ++ toString 0 ++ "]") :=
  c8_short_circuit_amended (c8badReg "r0") [c8badReg "r1"] 0 (by decide)

theorem isHexDigit_not_space {c : Char} (h : isHexDigit c = true) : isPySpace c = false := by
  unfold isHexDigit at h
  unfold isPySpace
  simp only [Bool.or_eq_true, Bool.and_eq_true, decide_eq_true_eq] at h
  simp only [Bool.or_eq_false_iff, decide_eq_false_iff_not]
  omega

theorem hexTailOk_of_all_hex {cs : List Char} (h : cs.all isHexDigit = true) :
    hexTailOk cs = true := by
  induction cs with
  | nil => rfl
  | cons c rest ih =>
    simp only [List.all_cons, Bool.and_eq_true] at h
    have hund : ¬c = '_' := by
      intro hc
      subst hc
      exact absurd h.1 (by decide)
    unfold hexTailOk
    rw [if_neg hund, h.1, ih h.2]
    rfl

theorem dropWhile_eq_self_of_head {p : Char → Bool} :
    ∀ {cs : List Char}, (∀ c ∈ cs, p c = false) → cs.dropWhile p = cs := by
  intro cs h
  cases cs with
  | nil => rfl
  | cons c rest =>
    have : p c = false := h c (List.mem_cons_self c rest)
    simp [List.dropWhile_cons, this]

/-- For a string `"0x"` followed by a non-empty run of plain hex digits —
exactly the shape `validate_register` has verified before re-parsing the
reset value — `int(s, 16)` succeeds with the digits' value. -/
theorem pyIntBase16_of_all_hex {s : String} (hpre : pyStartsWith s "0x" = true)
    (hne : s.toList.drop 2 ≠ []) (hall : (s.toList.drop 2).all isHexDigit = true) :
    pyIntBase16 s = some (hexValOf (s.toList.drop 2)) := by
  obtain ⟨t, ht⟩ : ∃ t, s.toList = '0' :: 'x' :: t := by
    have := List.isPrefixOf_iff_prefix.mp hpre
    obtain ⟨u, hu⟩ := this
    exact ⟨u, hu.symm⟩
  rw [ht] at hne hall ⊢
  simp only [List.drop_succ_cons, List.drop_zero] at hne hall ⊢
  have hnospace : ∀ c ∈ ('0' :: 'x' :: t), isPySpace c = false := by
    intro c hc
    simp only [List.mem_cons] at hc
    rcases hc with rfl | rfl | hc
    · decide
    · decide
    · exact isHexDigit_not_space (List.all_eq_true.mp hall c hc)
  unfold pyIntBase16
  rw [ht]
  have hlead : dropLeadingWs ('0' :: 'x' :: t) = '0' :: 'x' :: t := by
    unfold dropLeadingWs
    exact dropWhile_eq_self_of_head hnospace
  have htrail : dropTrailingWs ('0' :: 'x' :: t) = '0' :: 'x' :: t := by
    unfold dropTrailingWs
    rw [dropWhile_eq_self_of_head (fun c hc => hnospace c (List.mem_reverse.mp hc)),
      List.reverse_reverse]
  rw [hlead, htrail]
  have hne' : t.isEmpty = false := by
    cases t with
    | nil => exact absurd rfl hne
    | cons a b => rfl
  simp [hne', hexTailOk_of_all_hex hall]

/-- A register that passed `validate_register` passed each of its checks
in sequence. -/
theorem validate_register_ok_parts {kvs : List (String × Json)} {path : String}
    (h : (validate_register (Json.obj kvs) path).ok = true) :
    (check_address (getD kvs "absolute_address") ("at " ++ path)).ok = true ∧
    (check_paths kvs path).ok = true ∧
    (check_offset kvs path).ok = true ∧
    (check_fields_entry kvs path).ok = true ∧
    (check_register_width kvs path).ok = true ∧
    (check_register_reset kvs path).ok = true := by
  simp only [validate_register] at h
  cases hfind : ["inst_name", "absolute_address", "path", "path_abs", "fields"].find?
      (fun k => (getKey k kvs).isNone) with
  | some k =>
    simp only [hfind, vfail] at h
    exact absurd h (by simp)
  | none =>
    simp only [hfind, VResult.andThen_ok_iff] at h
    exact ⟨h.1, h.2.1, h.2.2.1, h.2.2.2.1, h.2.2.2.2.1, h.2.2.2.2.2⟩

/-- Well-formed register carrying the given optional width/reset entries;
shared body of the C4 example registers. -/
def c4reg (extra : List (String × Json)) : Json :=
  Json.obj ([("inst_name", Json.str "r"), ("absolute_address", Json.int 0),
    ("path", Json.arr []), ("path_abs", Json.arr []),
    ("fields", Json.arr [Json.obj [("inst_name", Json.str "f"),
      ("absolute_address", Json.int 0),
      ("lsb", Json.int 0), ("msb", Json.int 0), ("width", Json.int 1)]])] ++ extra)

def c4regW4 : Json :=
  c4reg [("register_width", Json.int 4), ("register_reset_value", Json.str "0x100")]

def c4regW16 : Json :=
  c4reg [("register_width", Json.int 16), ("register_reset_value", Json.str "0x100")]

def c4regUpper : Json := c4reg [("register_reset_value", Json.str "0xFF")]

/-- C4: a register carrying `register_reset_value` is accepted only if the
value is a string starting with `0x` whose remainder is non-empty and all
hex digits, and — when `register_width` is present — whose parsed value
fits in `2 ^ register_width - 1`.  Concretely, `"0x100"` with width 4 is
rejected with the exceeds-width hard error, `"0x100"` with width 16 is
accepted with nothing logged, and uppercase hex (`"0xFF"`) is accepted
with exactly the lowercase-preferred warning. -/
theorem c4_reset_value_validation :
    (∀ (kvs : List (String × Json)) (path : String) (rv : Json),
      getKey "register_reset_value" kvs = some rv →
      (validate_register (Json.obj kvs) path).ok = true →
      ∃ s, rv = Json.str s ∧ pyStartsWith s "0x" = true ∧ s.toList.drop 2 ≠ [] ∧
        (s.toList.drop 2).all isHexDigit = true ∧
        (∀ wj, getKey "register_width" kvs = some wj →
          ∃ w, asPyInt wj = some w ∧
            (hexValOf (s.toList.drop 2) : Int) ≤ 2 ^ w.toNat - 1)) ∧
    (validate_register c4regW4 "registers[0]").ok = false ∧
    "register_reset_value 0x100 exceeds register_width 4 at registers[0]" ∈
      (validate_register c4regW4 "registers[0]").errors ∧
    validate_register c4regW16 "registers[0]" = vpass ∧
    validate_register c4regUpper "registers[0]" =
      ⟨true, [],
        ["register_reset_value uses uppercase hex at registers[0], lowercase preferred"]⟩ := by
  refine ⟨?_, by decide, by decide, by decide, by decide⟩
  intro kvs path rv hrv hok
  obtain ⟨-, -, -, -, hwidth, hreset⟩ := validate_register_ok_parts hok
  simp only [check_register_reset, hrv] at hreset
  cases rv with
  | str s =>
    refine ⟨s, rfl, ?_⟩
    by_cases hpre : pyStartsWith s "0x" = true
    swap
    · have : pyStartsWith s "0x" = false := by simpa using hpre
      simp [this, vfail] at hreset
    simp only [hpre, Bool.not_true, Bool.false_eq_true, if_false] at hreset
    refine ⟨hpre, ?_⟩
    cases hdrop : s.toList.drop 2 with
    | nil =>
      simp only [hdrop, List.isEmpty_nil, if_true, vfail] at hreset
      exact absurd hreset (by simp)
    | cons a b =>
      simp only [hdrop, List.isEmpty_cons, Bool.false_eq_true, if_false] at hreset
      refine ⟨List.cons_ne_nil a b, ?_⟩
      cases hbadc : (a :: b).find? (fun c => !isHexDigit c) with
      | some c => simp [hbadc, vfail] at hreset
      | none =>
        have hall : (a :: b).all isHexDigit = true := by
          rw [List.all_eq_true]
          intro c hc
          have := List.find?_eq_none.mp hbadc c hc
          simpa using this
        refine ⟨hall, ?_⟩
        simp only [hbadc, VResult.andThen_ok_iff] at hreset
        replace hreset := hreset.2
        intro wj hwj
        simp only [hwj] at hreset
        have hparse : pyIntBase16 s = some (hexValOf (a :: b)) := by
          have hp := pyIntBase16_of_all_hex hpre (by rw [hdrop]; simp) (by rw [hdrop]; exact hall)
          rwa [hdrop] at hp
        simp only [hparse] at hreset
        simp only [check_register_width, hwj] at hwidth
        cases haw : asPyInt wj with
        | none => simp [haw, vfail] at hwidth
        | some w =>
          refine ⟨w, rfl, ?_⟩
          simp only [haw, Option.getD_some] at hreset
          by_cases hgt : (hexValOf (a :: b) : Int) > 2 ^ w.toNat - 1
          · simp [hgt, vfail] at hreset
          · omega
  | int n => simp [vfail] at hreset
  | bool b => simp [vfail] at hreset
  | null => simp [vfail] at hreset
  | arr xs => simp [vfail] at hreset
  | obj o => simp [vfail] at hreset

theorem c4_reset_value_validation_witness :
    ∃ s, Json.str "0x100" = Json.str s ∧ pyStartsWith s "0x" = true ∧
      s.toList.drop 2 ≠ [] ∧ (s.toList.drop 2).all isHexDigit = true ∧
      (∀ wj,
        getKey "register_width"
          [("inst_name", Json.str "r"), ("absolute_address", Json.int 0),
            ("path", Json.arr []), ("path_abs", Json.arr []),
            ("fields", Json.arr [Json.obj [("inst_name", Json.str "f"),
              ("absolute_address", Json.int 0),
              ("lsb", Json.int 0), ("msb", Json.int 0), ("width", Json.int 1)]]),
            ("register_width", Json.int 16),
            ("register_reset_value", Json.str "0x100")] = some wj →
        ∃ w, asPyInt wj = some w ∧
          (hexValOf (s.toList.drop 2) : Int) ≤ 2 ^ w.toNat - 1) :=
  c4_reset_value_validation.1
    [("inst_name", Json.str "r"), ("absolute_address", Json.int 0),
      ("path", Json.arr []), ("path_abs", Json.arr []),
      ("fields", Json.arr [Json.obj [("inst_name", Json.str "f"),
        ("absolute_address", Json.int 0),
        ("lsb", Json.int 0), ("msb", Json.int 0), ("width", Json.int 1)]]),
      ("register_width", Json.int 16),
      ("register_reset_value", Json.str "0x100")]
    "registers[0]" (Json.str "0x100") rfl (by decide)

theorem firstBadBit_none_vals {kvs : List (String × Json)} (h : firstBadBit kvs = none) :
    (∃ l, asPyInt (getD kvs "lsb") = some l ∧ 0 ≤ l) ∧
    (∃ m, asPyInt (getD kvs "msb") = some m ∧ 0 ≤ m) ∧
    (∃ w, asPyInt (getD kvs "width") = some w ∧ 0 ≤ w) := by
  unfold firstBadBit at h
  rw [List.find?_eq_none] at h
  have hl := h "lsb" (by simp)
  have hm := h "msb" (by simp)
  have hw := h "width" (by simp)
  refine ⟨?_, ?_, ?_⟩
  · cases hv : asPyInt (getD kvs "lsb") with
    | none => simp [hv] at hl
    | some v =>
      simp only [hv, decide_eq_true_eq] at hl
      exact ⟨v, rfl, by omega⟩
  · cases hv : asPyInt (getD kvs "msb") with
    | none => simp [hv] at hm
    | some v =>
      simp only [hv, decide_eq_true_eq] at hm
      exact ⟨v, rfl, by omega⟩
  · cases hv : asPyInt (getD kvs "width") with
    | none => simp [hv] at hw
    | some v =>
      simp only [hv, decide_eq_true_eq] at hw
      exact ⟨v, rfl, by omega⟩

theorem check_bit_range_ok_iff {kvs : List (String × Json)} {path : String} {l m w : Int}
    (hl : asPyInt (getD kvs "lsb") = some l) (hm : asPyInt (getD kvs "msb") = some m)
    (hw : asPyInt (getD kvs "width") = some w) :
    (check_bit_range kvs path).ok = true ↔ (l ≤ m ∧ w = m - l + 1) := by
  simp only [check_bit_range, hl, hm, hw, Option.getD_some]
  by_cases h₁ : m < l
  · simp only [h₁, if_true, vfail]
    constructor
    · intro hx; exact absurd hx (by simp)
    · intro hx; omega
  · simp only [h₁, if_false]
    by_cases h₂ : w = m - l + 1
    · simp [h₁, h₂, vpass]
      try omega
    · simp [h₁, h₂, vfail]
      try omega

theorem check_bit_range_fail {kvs : List (String × Json)} {path : String}
    (h : (check_bit_range kvs path).ok = false) :
    ∃ a, (check_bit_range kvs path).errors = [a ++ path] := by
  revert h
  simp only [check_bit_range]
  split
  · intro _
    exact ⟨_, rfl⟩
  · split
    · intro _
      exact ⟨_, rfl⟩
    · intro h
      exact absurd h (by simp [vpass])

theorem validate_field_ok_bits {f : Json} {path : String}
    (h : (validate_field f path).ok = true) :
    ∃ kvs l m w, f = Json.obj kvs ∧
      asPyInt (getD kvs "lsb") = some l ∧ asPyInt (getD kvs "msb") = some m ∧
      asPyInt (getD kvs "width") = some w ∧ 0 ≤ l ∧ l ≤ m ∧ w = m - l + 1 := by
  cases f with
  | obj kvs =>
    simp only [validate_field] at h
    cases hfind : ["inst_name", "absolute_address", "lsb", "msb", "width"].find?
        (fun k => (getKey k kvs).isNone) with
    | some k =>
      simp only [hfind, vfail] at h
      exact absurd h (by simp)
    | none =>
      simp only [hfind, VResult.andThen_ok_iff] at h
      obtain ⟨-, hbit, hrange⟩ := h
      cases hbad : firstBadBit kvs with
      | some name =>
        simp only [hbad, vfail] at hbit
        exact absurd hbit (by simp)
      | none =>
        obtain ⟨⟨l, hl, hl0⟩, ⟨m, hm, -⟩, ⟨w, hw, -⟩⟩ := firstBadBit_none_vals hbad
        have hr := (check_bit_range_ok_iff hl hm hw).mp hrange
        exact ⟨kvs, l, m, w, rfl, hl, hm, hw, hl0, hr.1, hr.2⟩
  | null => simp [validate_field, vfail] at h
  | bool b => simp [validate_field, vfail] at h
  | int n => simp [validate_field, vfail] at h
  | str s => simp [validate_field, vfail] at h
  | arr xs => simp [validate_field, vfail] at h

theorem validate_field_obj_fail {kvs : List (String × Json)} {path : String}
    (h : (validate_field (Json.obj kvs) path).ok = false) :
    ∃ a, (validate_field (Json.obj kvs) path).errors = [a ++ path] := by
  revert h
  simp only [validate_field]
  cases hfind : ["inst_name", "absolute_address", "lsb", "msb", "width"].find?
      (fun k => (getKey k kvs).isNone) with
  | some k =>
    intro _
    exact ⟨_, rfl⟩
  | none =>
    by_cases hA : (check_address (getD kvs "absolute_address") ("at " ++ path)).ok = true
    · rw [check_address_ok_eq_vpass hA, vpass_andThen]
      cases hbad : firstBadBit kvs with
      | some name =>
        rw [vfail_andThen]
        intro _
        exact ⟨_, rfl⟩
      | none =>
        rw [vpass_andThen]
        exact check_bit_range_fail
    · have hA' : (check_address (getD kvs "absolute_address") ("at " ++ path)).ok = false := by
        simpa using hA
      rw [fail_andThen _ _ hA']
      intro _
      obtain ⟨a, ha⟩ := check_address_fail hA'
      rw [ha]
      exact ⟨a ++ "at ", by rw [String.append_assoc]⟩

theorem validate_fields_ok_mem {fs : List Json} {path : String} :
    ∀ {i : Nat}, (validate_fields fs path i).ok = true →
    ∀ f ∈ fs, ∃ p, (validate_field f p).ok = true := by
  induction fs with
  | nil => intro i _ f hf; cases hf
  | cons g rest ih =>
    intro i h f hf
    simp only [validate_fields, VResult.andThen_ok_iff] at h
    rcases List.mem_cons.mp hf with rfl | hf₂
    · exact ⟨_, h.1⟩
    · exact ih h.2 f hf₂

theorem validate_registers_ok_mem {regs : List Json} :
    ∀ {i : Nat}, (validate_registers regs i).ok = true →
    ∀ r ∈ regs, ∃ p, (validate_register r p).ok = true := by
  induction regs with
  | nil => intro i _ r hr; cases hr
  | cons g rest ih =>
    intro i h r hr
    simp only [validate_registers, VResult.andThen_ok_iff] at h
    rcases List.mem_cons.mp hr with rfl | hr₂
    · exact ⟨_, h.1⟩
    · exact ih h.2 r hr₂

theorem validate_register_ok_fields_loop {kvs : List (String × Json)} {path : String}
    {fs : List Json}
    (hok : (validate_register (Json.obj kvs) path).ok = true)
    (hf : getKey "fields" kvs = some (Json.arr fs)) :
    (validate_fields fs path 0).ok = true := by
  obtain ⟨-, -, -, hfe, -, -⟩ := validate_register_ok_parts hok
  simp only [check_fields_entry, getD, hf, Option.getD_some, VResult.andThen_ok_iff] at hfe
  exact hfe.2

theorem validate_simplified_ok_registers {data : Json} {r : VResult}
    {kvs : List (String × Json)} {regs : List Json}
    (h : validate_simplified_json data = some r) (hok : r.ok = true)
    (hd : data = Json.obj kvs) (hregs : getKey "registers" kvs = some (Json.arr regs)) :
    (validate_registers regs 0).ok = true := by
  subst hd
  by_cases hloop : (validate_registers regs 0).ok = true
  · exact hloop
  · exfalso
    have hloop' : (validate_registers regs 0).ok = false := by simpa using hloop
    simp only [validate_simplified_json] at h
    cases hfind : ["format", "version", "addrmap", "registers"].find?
        (fun k => (getKey k kvs).isNone) with
    | some k =>
      simp only [hfind, Option.some.injEq] at h
      rw [← h] at hok
      simp [vfail] at hok
    | none =>
      simp only [hfind] at h
      by_cases hfmt : isStrEq (getD kvs "format") "SystemRDL_SimplifiedModel" = true
      swap
      · have hfmt' : isStrEq (getD kvs "format") "SystemRDL_SimplifiedModel" = false := by
          simpa using hfmt
        simp only [hfmt', Bool.not_false, if_true, Option.some.injEq] at h
        rw [← h] at hok
        simp [vfail] at hok
      · simp only [hfmt, Bool.not_true, Bool.false_eq_true, if_false] at h
        cases hver : getD kvs "version" with
        | str v =>
          simp only [hver] at h
          cases haddr : validate_addrmap (getD kvs "addrmap") with
          | none => simp [haddr] at h
          | some ra =>
            simp only [haddr, Option.some_bind] at h
            by_cases hra : ra.ok = true
            swap
            · have hra' : ra.ok = false := by simpa using hra
              simp only [hra', Bool.not_false, if_true, Option.some.injEq] at h
              rw [← h] at hok
              exact absurd hok (by simp [hra'])
            · simp only [hra, Bool.not_true, Bool.false_eq_true, if_false] at h
              rw [show getD kvs "registers" = Json.arr regs from by
                rw [getD, hregs]; rfl] at h
              have hR : ((if regs.isEmpty then vwarn "Registers array is empty"
                  else vpass).andThen (fun _ => validate_registers regs 0)).ok = false := by
                rw [Bool.eq_false_iff]
                intro hcon
                rw [VResult.andThen_ok_iff] at hcon
                exact absurd hcon.2 hloop
              simp only [hR, Bool.not_false, if_true, Option.some.injEq] at h
              rw [← h] at hok
              simp at hok
        | null => simp [hver, vfail, Option.some.injEq] at h; rw [← h] at hok; simp [vfail] at hok
        | bool b => simp [hver, Option.some.injEq] at h; rw [← h] at hok; simp [vfail] at hok
        | int n => simp [hver, Option.some.injEq] at h; rw [← h] at hok; simp [vfail] at hok
        | arr xs => simp [hver, Option.some.injEq] at h; rw [← h] at hok; simp [vfail] at hok
        | obj o => simp [hver, Option.some.injEq] at h; rw [← h] at hok; simp [vfail] at hok

/-- C1: a field validates only if `msb ≥ lsb` and `width = msb - lsb + 1`
exactly; a field whose bit values violate either condition is rejected
with a hard error whose message names the offending path; and a simplified
document that validates successfully contains only fields satisfying the
invariant (violating documents can never be accepted). -/
theorem c1_field_bit_range_invariant :
    (∀ (field : Json) (path : String),
      (validate_field field path).ok = true →
      ∃ kvs l m w, field = Json.obj kvs ∧
        asPyInt (getD kvs "lsb") = some l ∧ asPyInt (getD kvs "msb") = some m ∧
        asPyInt (getD kvs "width") = some w ∧ 0 ≤ l ∧ l ≤ m ∧ w = m - l + 1) ∧
    (∀ (kvs : List (String × Json)) (path : String) (l m w : Int),
      asPyInt (getD kvs "lsb") = some l → asPyInt (getD kvs "msb") = some m →
      asPyInt (getD kvs "width") = some w →
      (m < l ∨ w ≠ m - l + 1) →
      (validate_field (Json.obj kvs) path).ok = false ∧
      ∃ e ∈ (validate_field (Json.obj kvs) path).errors, containsSub e path = true) ∧
    (∀ (data : Json) (r : VResult) (kvs : List (String × Json)) (regs : List Json),
      validate_simplified_json data = some r → r.ok = true →
      data = Json.obj kvs → getKey "registers" kvs = some (Json.arr regs) →
      ∀ reg ∈ regs, ∀ (rkvs : List (String × Json)) (fs : List Json),
        reg = Json.obj rkvs → getKey "fields" rkvs = some (Json.arr fs) →
        ∀ f ∈ fs, ∃ fkvs l m w, f = Json.obj fkvs ∧
          asPyInt (getD fkvs "lsb") = some l ∧ asPyInt (getD fkvs "msb") = some m ∧
          asPyInt (getD fkvs "width") = some w ∧ l ≤ m ∧ w = m - l + 1) := by
  refine ⟨fun field path => validate_field_ok_bits, ?_, ?_⟩
  · intro kvs path l m w hl hm hw hbad
    have hfalse : (validate_field (Json.obj kvs) path).ok = false := by
      cases hok : (validate_field (Json.obj kvs) path).ok with
      | false => rfl
      | true =>
        obtain ⟨kvs₂, l₂, m₂, w₂, heq, hl₂, hm₂, hw₂, -, hle, hwe⟩ :=
          validate_field_ok_bits hok
        injection heq with heq₂
        subst heq₂
        rw [hl] at hl₂
        rw [hm] at hm₂
        rw [hw] at hw₂
        injection hl₂ with hl₃
        injection hm₂ with hm₃
        injection hw₂ with hw₃
        subst hl₃
        subst hm₃
        subst hw₃
        rcases hbad with hb | hb
        · omega
        · omega
    refine ⟨hfalse, ?_⟩
    obtain ⟨a, ha⟩ := validate_field_obj_fail hfalse
    rw [ha]
    exact ⟨a ++ path, by simp, containsSub_append_self a path⟩
  · intro data r kvs regs h hok hd hregs reg hreg rkvs fs hrkvs hfs f hf
    have hloop := validate_simplified_ok_registers h hok hd hregs
    obtain ⟨p, hp⟩ := validate_registers_ok_mem hloop reg hreg
    rw [hrkvs] at hp
    have hfloop := validate_register_ok_fields_loop hp hfs
    obtain ⟨p₂, hp₂⟩ := validate_fields_ok_mem hfloop f hf
    obtain ⟨fkvs, l, m, w, hfe, hl, hm, hw, -, hle, hwe⟩ := validate_field_ok_bits hp₂
    exact ⟨fkvs, l, m, w, hfe, hl, hm, hw, hle, hwe⟩

theorem c1_field_bit_range_invariant_witness :
    (validate_field
      (Json.obj [("inst_name", Json.str "f"), ("absolute_address", Json.int 0),
        ("lsb", Json.int 4), ("msb", Json.int 2), ("width", Json.int 3)])
      "registers[0].fields[0]").ok = false ∧
    ∃ e ∈ (validate_field
      (Json.obj [("inst_name", Json.str "f"), ("absolute_address", Json.int 0),
        ("lsb", Json.int 4), ("msb", Json.int 2), ("width", Json.int 3)])
      "registers[0].fields[0]").errors,
      containsSub e "registers[0].fields[0]" = true :=
  c1_field_bit_range_invariant.2.1
    [("inst_name", Json.str "f"), ("absolute_address", Json.int 0),
      ("lsb", Json.int 4), ("msb", Json.int 2), ("width", Json.int 3)]
    "registers[0].fields[0]" 4 2 3 rfl rfl rfl (Or.inl (by decide))
